import Mathlib

/-!
Verification of the npmleaderboard aggregation pipeline
(src/processPackagesInfo.py and src/scripts/updateExistingPackages.py).

The Python scripts are embedded shallowly:

* JSON values exchanged with the three upstream HTTP services are modelled
  by the inductive type `JVal`; Python dicts are association lists
  `List (String × JVal)`.
* An HTTP GET together with the subsequent `response.json()` decoding is
  modelled by `Fetch`: either the whole `async with session.get(...)` block
  raises (`Fetch.exc` carries `str(e)`), or a response with a status code
  arrives whose body either decodes to a `JVal` or raises while decoding.
* Code that can raise is modelled in `Except String`; the `try/except`
  boundaries of the scripts catch exactly the `.error` outcomes.
* The weekly-bucketing loops of the two `fetch_weekly_trends` variants are
  transcribed as pure functions over well-typed day entries.
* The `asyncio.Semaphore(10)` discipline is modelled by a small interleaving
  semantics over per-pipeline action lists (`Act`, `SysState`, `stepSys`).

Exception message texts for malformed payload shapes (AttributeError /
KeyError / TypeError raised deep inside the composition) are abbreviated to
fixed strings; every message the scripts construct themselves (f-strings for
status failures, "No version information found") is modelled exactly.
-/

/-- JSON values, as decoded by `response.json()`. Objects are association
lists of string keys, mirroring Python dicts. -/
inductive JVal where
  | null
  | bool (b : Bool)
  | num (n : Int)
  | str (s : String)
  | arr (xs : List JVal)
  | obj (fields : List (String × JVal))

/-- Python truthiness of a JSON value (`if v:`). -/
def truthy : JVal → Bool
  | .null => false
  | .bool b => b
  | .num n => n != 0
  | .str s => s != ""
  | .arr xs => !xs.isEmpty
  | .obj fs => !fs.isEmpty

/-- Python `d.get(k, default)` on a dict represented as an association list. -/
def dictGetD (fs : List (String × JVal)) (k : String) (d : JVal) : JVal :=
  (List.lookup k fs).getD d

/-- Python `d.get(k)` / `d.get(k, default)` on an arbitrary value: raises
AttributeError when the receiver is not a dict. -/
def jgetE (v : JVal) (k : String) (d : JVal) : Except String JVal :=
  match v with
  | .obj fs => .ok (dictGetD fs k d)
  | _ => .error "AttributeError: object has no attribute get"

/-- Python `v[k]` for a string key: KeyError when absent, TypeError when the
receiver is not a dict. -/
def idxS (v : JVal) (k : String) : Except String JVal :=
  match v with
  | .obj fs =>
    match List.lookup k fs with
    | some x => .ok x
    | none => .error ("'" ++ k ++ "'")
  | _ => .error "TypeError: object is not subscriptable"

/-- Python `v[key]` where the key is itself a value (used for
`data["versions"][latest_version]`); JSON object keys are strings, so any
non-string key is simply absent. -/
def idxJ (v : JVal) (key : JVal) : Except String JVal :=
  match key with
  | .str k => idxS v k
  | _ => .error "KeyError"

/-- Python `k in v` (membership test). For dicts this is key membership; for
lists, element membership; for strings, substring containment; other
receivers raise TypeError. -/
def pyIn (k : String) (v : JVal) : Except String Bool :=
  match v with
  | .obj fs => .ok (decide ((List.lookup k fs).isSome))
  | .arr xs => .ok (xs.any (fun x => match x with | .str s => s == k | _ => false))
  | .str s => .ok (decide (1 < (s.splitOn k).length))
  | _ => .error "TypeError: argument is not iterable"

/-- Python `list(v.keys())`: the keys of a dict, AttributeError otherwise. -/
def jkeysE (v : JVal) : Except String (List String) :=
  match v with
  | .obj fs => .ok (fs.map Prod.fst)
  | _ => .error "AttributeError: object has no attribute keys"

/-- The string stored in an error field of one of the scripts' result dicts;
those fields only ever hold strings. -/
def errText : JVal → String
  | .str s => s
  | _ => ""

/-- Outcome of one `async with session.get(url)` block followed (on status
200) by `await response.json()`:
`exc msg` models an exception raised by the block with `str(e) = msg`;
`resp status body` models a response, whose body decoding either yields a
JSON value or raises with the given message. -/
inductive Fetch where
  | exc (msg : String)
  | resp (status : Nat) (body : Except String JVal)

/-- Shared shape of the three request sites: a non-200 status produces the
site-specific failure message, an exception or a decoding fault produces its
own text, otherwise the decoded JSON body. -/
def getJson (r : Fetch) (statusMsg : Nat → String) : Except String JVal :=
  match r with
  | .exc m => .error m
  | .resp s body =>
    if s ≠ 200 then .error (statusMsg s)
    else match body with
      | .ok j => .ok j
      | .error m => .error m

/-- One entry of the daily download series: `{"day": ..., "downloads": ...}`
with the field types the downloads API actually returns. -/
structure DayEntry where
  day : String
  downloads : Int
  deriving DecidableEq

/-- One element of the `weekly_trends` output list:
`{"week_ending": ..., "downloads": ...}`. -/
structure WeekBucket where
  week_ending : String
  downloads : Int
  deriving DecidableEq

/-- The accumulation loop of `NPMPackageProcessor.fetch_weekly_trends`
(src/processPackagesInfo.py): `acc` is `current_week`, `lastd` is the day
string of the most recently processed entry (the source reads the trailing
partial week's `week_ending` from `download_data["downloads"][-1]["day"]`,
which is exactly the last processed day). -/
def fixedLoop : List DayEntry → List Int → String → List WeekBucket
  | [], acc, lastd =>
    if acc.isEmpty then [] else [⟨lastd, acc.sum⟩]
  | d :: ds, acc, _ =>
    let acc2 := acc ++ [d.downloads]
    if acc2.length = 7 then
      ⟨d.day, acc2.sum⟩ :: fixedLoop ds [] d.day
    else
      fixedLoop ds acc2 d.day

/-- Fixed-chunk weekly bucketization: the pure core of
`NPMPackageProcessor.fetch_weekly_trends`. -/
def bucketizeFixed (days : List DayEntry) : List WeekBucket :=
  fixedLoop days [] ""

/-!  Calendar dates.  The updater script parses day strings with
`strptime("%Y-%m-%d")`, tests `weekday() == 0`, and adds/subtracts day
offsets.  Dates are modelled by their serial day number (days since
0000-03-01 of the proleptic Gregorian calendar), with the standard civil
calendar conversions. -/

/-- Serial day number of a civil date (days since 0000-03-01), for y ≥ 1. -/
def toRD (y m d : Nat) : Nat :=
  let y2 := if m ≤ 2 then y - 1 else y
  let era := y2 / 400
  let yoe := y2 % 400
  let mp := if 2 < m then m - 3 else m + 9
  let doy := (153 * mp + 2) / 5 + (d - 1)
  let doe := yoe * 365 + yoe / 4 - yoe / 100 + doy
  era * 146097 + doe

/-- Civil date (year, month, day) of a serial day number. -/
def fromRD (z : Nat) : Nat × Nat × Nat :=
  let era := z / 146097
  let doe := z % 146097
  let yoe := (doe - doe / 1460 + doe / 36524 - doe / 146096) / 365
  let y := yoe + era * 400
  let doy := doe - (365 * yoe + yoe / 4 - yoe / 100)
  let mp := (5 * doy + 2) / 153
  let d := doy - (153 * mp + 2) / 5 + 1
  let m := if mp < 10 then mp + 3 else mp - 9
  (if m ≤ 2 then y + 1 else y, m, d)

/-- Python `date.weekday()`: Monday = 0 … Sunday = 6.  Day 0 of the serial
numbering (0000-03-01) is a Wednesday, hence the offset 2. -/
def weekdayPy (z : Nat) : Nat := (z + 2) % 7

/-- Left-pad a numeral with zeros to the given width. -/
def padNum (w : Nat) (n : Nat) : String :=
  let s := toString n
  String.mk (List.replicate (w - s.length) '0') ++ s

/-- `strftime("%Y-%m-%d")` of a serial day number. -/
def fmtRD (z : Nat) : String :=
  let c := fromRD z
  padNum 4 c.1 ++ "-" ++ padNum 2 c.2.1 ++ "-" ++ padNum 2 c.2.2

/-- Split a character list at every dash. -/
def splitDash : List Char → List Char → List (List Char)
  | [], acc => [acc.reverse]
  | c :: cs, acc =>
    if c = '-' then acc.reverse :: splitDash cs []
    else splitDash cs (c :: acc)

/-- Numeric value of a nonempty all-digit character group. -/
def digitsToNat (cs : List Char) : Option Nat :=
  if cs.isEmpty then none
  else cs.foldl
    (fun acc? c => acc?.bind
      (fun acc => if c.isDigit then some (acc * 10 + (c.toNat - 48)) else none))
    (some 0)

/-- `strptime(s, "%Y-%m-%d")` as far as the embedded claims exercise it:
three dash-separated numeric components with basic range checks.  Returns
the serial day number. -/
def parseDateRD (s : String) : Option Nat :=
  match (splitDash s.data []).map digitsToNat with
  | [some y, some m, some d] =>
    if 1 ≤ m ∧ m ≤ 12 ∧ 1 ≤ d ∧ d ≤ 31 ∧ 1 ≤ y then some (toRD y m d) else none
  | _ => none

/-- The accumulation loop of `NPMPackageUpdater.fetch_weekly_trends`
(src/scripts/updateExistingPackages.py).  `acc` is `current_week`,
`start?` is `current_week_start` (the serial day of the last Monday seen,
initially `None`), `out` is `downloads_by_week`.  On each entry the day
string is parsed (`strptime` raising is an `.error`); on a Monday the days
accumulated so far are emitted with `week_ending` the day before, and the
accumulator is reset; after the loop the final week is emitted only when it
holds exactly 7 days (emission with `current_week_start = None` would raise
a TypeError). -/
def calLoop : List DayEntry → List Int → Option Nat → List WeekBucket →
    Except String (List WeekBucket)
  | [], acc, start?, out =>
    if acc.length = 7 then
      match start? with
      | some s => .ok (out ++ [⟨fmtRD (s + 6), acc.sum⟩])
      | none => .error "TypeError: unsupported operand"
    else .ok out
  | d :: ds, acc, start?, out =>
    match parseDateRD d.day with
    | none => .error "time data does not match format"
    | some rd =>
      if weekdayPy rd = 0 then
        calLoop ds [d.downloads] (some rd)
          (if acc.isEmpty then out else out ++ [⟨fmtRD (rd - 1), acc.sum⟩])
      else
        calLoop ds (acc ++ [d.downloads]) start? out

/-- Calendar-week bucketization: the pure core of
`NPMPackageUpdater.fetch_weekly_trends`. -/
def bucketizeCal (days : List DayEntry) : Except String (List WeekBucket) :=
  calLoop days [] none []

/-- Conversion of one raw JSON element of `download_data["downloads"]` into
a well-typed day entry; a malformed element makes the enclosing loop raise
(message text abbreviated). -/
def dayOfJson : JVal → Except String DayEntry
  | .obj fs =>
    match List.lookup "day" fs, List.lookup "downloads" fs with
    | some (.str d), some (.num n) => .ok ⟨d, n⟩
    | _, _ => .error "malformed day entry"
  | _ => .error "malformed day entry"

/-- Conversion of the whole raw series. -/
def daysOfJson (v : JVal) : Except String (List DayEntry) :=
  match v with
  | .arr xs => xs.mapM dayOfJson
  | _ => .error "TypeError: object is not iterable"

/-- Rendering of a bucket back into the JSON dict the scripts store. -/
def bucketJ (b : WeekBucket) : JVal :=
  .obj [("week_ending", .str b.week_ending), ("downloads", .num b.downloads)]

/-- `fetch_ecosystem_stats`, defined identically in both scripts
(src/processPackagesInfo.py lines 22-39 and
src/scripts/updateExistingPackages.py lines 29-43): a non-200 status or an
exception yields a dict holding only an error message; a decoded body
yields total downloads and dependent count with `.get(..., 0)` defaults. -/
def fetch_ecosystem_stats (r : Fetch) : List (String × JVal) :=
  match r with
  | .exc m => [("error", .str m)]
  | .resp s body =>
    if s ≠ 200 then
      [("error", .str ("Failed to fetch ecosystem stats: " ++ toString s))]
    else match body with
      | .error m => [("error", .str m)]
      | .ok data =>
        match data with
        | .obj fs =>
          [("total_downloads", dictGetD fs "downloads" (.num 0)),
           ("dependent_count", dictGetD fs "dependent_packages_count" (.num 0)),
           ("error", .null)]
        | _ => [("error", .str "AttributeError: object has no attribute get")]

/-- Python `d.get(k)` on a result dict of the scripts (default `None`). -/
def dget (fs : List (String × JVal)) (k : String) : JVal :=
  (List.lookup k fs).getD .null

namespace NPMPackageProcessor

/-- The fallible part of `NPMPackageProcessor.fetch_weekly_trends`: fetch
and decode, then run the fixed-chunk bucketization over
`download_data.get("downloads", [])`. -/
def weeklyRun (r : Fetch) : Except String (List WeekBucket) := do
  let body ← getJson r (fun s => "Failed to fetch download stats: " ++ toString s)
  let daysJ ← jgetE body "downloads" (.arr [])
  let days ← daysOfJson daysJ
  .ok (bucketizeFixed days)

/-- `NPMPackageProcessor.fetch_weekly_trends`: the returned dict. -/
def fetch_weekly_trends (r : Fetch) : List (String × JVal) :=
  match weeklyRun r with
  | .ok buckets => [("weekly_trends", .arr (buckets.map bucketJ)), ("error", .null)]
  | .error m => [("error", .str m)]

/-- The successful components of `fetch_package_info`, out of which the
success dict literal at src/processPackagesInfo.py lines 124-136 is built. -/
structure Parts where
  description : JVal
  dependencies : List String
  total_downloads : JVal
  weekly_trends : JVal
  dependent_count : JVal
  latest_version : JVal

/-- The body of the `try:` block of `fetch_package_info`
(src/processPackagesInfo.py lines 89-136), with every Python `raise` /
early error return carried in `Except`: metadata status check, ecosystem
stats, weekly trends, the dist-tags/versions check (with Python's
short-circuit of `not latest_version or "versions" not in data`), then
extraction of the success components in source order. -/
def fetchPackageInfoRun (meta ecoR trendR : Fetch) :
    Except String Parts := do
  let data ← getJson meta (fun s => "Failed to fetch package info: " ++ toString s)
  let ecoDict := fetch_ecosystem_stats ecoR
  if truthy (dget ecoDict "error") then
    throw (errText (dget ecoDict "error"))
  else
  let weeklyDict := fetch_weekly_trends trendR
  if truthy (dget weeklyDict "error") then
    throw (errText (dget weeklyDict "error"))
  else
  let distTags ← jgetE data "dist-tags" (.obj [])
  let latest ← jgetE distTags "latest" .null
  if truthy latest = false then
    throw "No version information found"
  else
  let hasVers ← pyIn "versions" data
  if hasVers = false then
    throw "No version information found"
  else
  let versions ← idxS data "versions"
  let latestData ← idxJ versions latest
  let desc ← jgetE data "description" (.str "")
  let depsObj ← jgetE latestData "dependencies" (.obj [])
  let deps ← jkeysE depsObj
  let total ← idxS (.obj ecoDict) "total_downloads"
  let trends ← idxS (.obj weeklyDict) "weekly_trends"
  let depcount ← idxS (.obj ecoDict) "dependent_count"
  pure ⟨desc, deps, total, trends, depcount, latest⟩

/-- `_create_error_entry` (src/processPackagesInfo.py lines 141-152). -/
def createErrorEntry (package_name : String) (error_msg : String) :
    List (String × JVal) :=
  [("name", .str package_name),
   ("description", .str ""),
   ("link", .str ""),
   ("dependencies", .arr []),
   ("downloads", .obj [("total", .num 0), ("weekly_trends", .arr [])]),
   ("dependent_packages_count", .num 0),
   ("latest_version", .str ""),
   ("error", .str error_msg)]

/-- The success dict literal returned at src/processPackagesInfo.py lines
124-136.  Note it has no peer-dependency field. -/
def mkSuccessDict (package_name : String) (p : Parts) :
    List (String × JVal) :=
  [("name", .str package_name),
   ("description", p.description),
   ("link", .str ("https://www.npmjs.com/package/" ++ package_name)),
   ("dependencies", .arr (p.dependencies.map JVal.str)),
   ("downloads", .obj [("total", p.total_downloads),
                       ("weekly_trends", p.weekly_trends)]),
   ("dependent_packages_count", p.dependent_count),
   ("latest_version", p.latest_version),
   ("error", .null)]

/-- `fetch_package_info`: the `try:` body composed with the
`except Exception as e` handler, which converts any raised fault into
`_create_error_entry(package_name, str(e))`. -/
def fetch_package_info (package_name : String) (meta ecoR trendR : Fetch) :
    List (String × JVal) :=
  match fetchPackageInfoRun meta ecoR trendR with
  | .ok p => mkSuccessDict package_name p
  | .error e => createErrorEntry package_name e

/-- The key list shared by both record shapes. -/
def recordKeys : List String :=
  ["name", "description", "link", "dependencies", "downloads",
   "dependent_packages_count", "latest_version", "error"]

end NPMPackageProcessor

namespace NPMPackageUpdater

/-- The fallible part of `NPMPackageUpdater.fetch_weekly_trends`: fetch and
decode, then run the calendar-week bucketization over
`download_data.get("downloads", [])`. -/
def weeklyRun (r : Fetch) : Except String (List WeekBucket) := do
  let body ← getJson r (fun s => "Failed to fetch download stats: " ++ toString s)
  let daysJ ← jgetE body "downloads" (.arr [])
  let days ← daysOfJson daysJ
  bucketizeCal days

/-- `NPMPackageUpdater.fetch_weekly_trends`: the returned dict. -/
def fetch_weekly_trends (r : Fetch) : List (String × JVal) :=
  match weeklyRun r with
  | .ok buckets => [("weekly_trends", .arr (buckets.map bucketJ)), ("error", .null)]
  | .error m => [("error", .str m)]

/-- Outcome of `update_package_info`
(src/scripts/updateExistingPackages.py lines 100-152): either the
`update_fields` dict written with `$set`, or the error string appended to
`failed_updates` by the `except` handler. -/
inductive UpdateResult where
  | updated (fields : List (String × JVal))
  | failed (error : String)

/-- The `try:` body of `update_package_info`: the same stage sequence as
the processor script, each stage failure raised as an exception; on
success the `update_fields` dict (including a `peerDependencies` list and
a wall-clock `last_updated` value, the latter abstracted as the parameter
`now`). -/
def updateRun (package_name : String) (meta ecoR trendR : Fetch) (now : JVal) :
    Except String (List (String × JVal)) := do
  let data ← getJson meta (fun s => "Failed to fetch package info: " ++ toString s)
  let ecoDict := fetch_ecosystem_stats ecoR
  if truthy (dget ecoDict "error") then
    throw (errText (dget ecoDict "error"))
  else
  let weeklyDict := fetch_weekly_trends trendR
  if truthy (dget weeklyDict "error") then
    throw (errText (dget weeklyDict "error"))
  else
  let distTags ← jgetE data "dist-tags" (.obj [])
  let latest ← jgetE distTags "latest" .null
  if truthy latest = false then
    throw "No version information found"
  else
  let hasVers ← pyIn "versions" data
  if hasVers = false then
    throw "No version information found"
  else
  let versions ← idxS data "versions"
  let latestData ← idxJ versions latest
  let peerObj ← jgetE latestData "peerDependencies" (.obj [])
  let peerDeps ← jkeysE peerObj
  let desc ← jgetE data "description" (.str "")
  let depsObj ← jgetE latestData "dependencies" (.obj [])
  let deps ← jkeysE depsObj
  let total ← idxS (.obj ecoDict) "total_downloads"
  let trends ← idxS (.obj weeklyDict) "weekly_trends"
  let depcount ← idxS (.obj ecoDict) "dependent_count"
  pure
    [("description", desc),
     ("link", .str ("https://www.npmjs.com/package/" ++ package_name)),
     ("dependencies", .arr (deps.map JVal.str)),
     ("peerDependencies", .arr (peerDeps.map JVal.str)),
     ("downloads", .obj [("total", total), ("weekly_trends", trends)]),
     ("dependent_packages_count", depcount),
     ("latest_version", latest),
     ("last_updated", now)]

/-- `update_package_info` with its `except` boundary. -/
def update_package_info (package_name : String) (meta ecoR trendR : Fetch)
    (now : JVal) : UpdateResult :=
  match updateRun package_name meta ecoR trendR now with
  | .ok fs => .updated fs
  | .error e => .failed e

end NPMPackageUpdater

/-!  Batch runner (`process_packages`, src/processPackagesInfo.py lines
154-167).  The per-identifier upstream responses are abstracted as an
environment assigning to each package name its three fetch outcomes.  -/

/-- The three upstream outcomes (metadata, ecosystem stats, download range)
for one package name. -/
def FetchEnv : Type := String → Fetch × Fetch × Fetch

/-- The record the pipeline of one identifier computes, given the
environment. -/
def pipelineOf (env : FetchEnv) (package_name : String) :
    List (String × JVal) :=
  NPMPackageProcessor.fetch_package_info package_name
    (env package_name).1 (env package_name).2.1 (env package_name).2.2

/-- The records of a batch in input order: `process_packages` builds one
task per name, in order. -/
def fetchAll (env : FetchEnv) (names : List String) :
    List (List (String × JVal)) :=
  names.map (pipelineOf env)

/-- The per-task results tagged with their argument position, produced in an
arbitrary completion order: entry `i` of `order` says which task finished
at that instant. -/
def runOrder (env : FetchEnv) (names : List String) (order : List Nat) :
    List (Nat × List (String × JVal)) :=
  order.map (fun i => (i, pipelineOf env (names.getD i "")))

/-- Models `await asyncio.gather(*tasks)`: whatever order the tasks complete
in, the gathered list places the result of task `i` at position `i`. -/
def gatherResults (env : FetchEnv) (names : List String) (order : List Nat) :
    List (List (String × JVal)) :=
  (List.range names.length).filterMap
    (fun i => List.lookup i (runOrder env names order))

/-!  Concurrency model for the shared `asyncio.Semaphore(10)`.  Each
per-identifier pipeline is abstracted to the sequence of semaphore and
network actions it performs; a scheduler interleaves the pipelines one
action at a time.  An `acq` action is enabled only while fewer than `cap`
permits are held; `callStart`/`callEnd` bracket one in-flight outbound
request.  `peak` records the largest number of simultaneously in-flight
requests seen so far. -/

/-- One atomic action of a pipeline. -/
inductive Act where
  | acq
  | rel
  | callStart
  | callEnd
  deriving DecidableEq

/-- Global state: remaining actions of every pipeline, permits currently
held, in-flight outbound calls, and the peak in-flight count. -/
structure SysState where
  pipes : List (List Act)
  sem : Nat
  inflight : Nat
  peak : Nat
  deriving DecidableEq

/-- Execute the next action of pipeline `i`, if there is one and it is
enabled. -/
def stepSys (cap : Nat) (s : SysState) (i : Nat) : Option SysState :=
  match s.pipes.get? i with
  | none => none
  | some [] => none
  | some (a :: rest) =>
    match a with
    | .acq =>
      if s.sem < cap then
        some { s with pipes := s.pipes.set i rest, sem := s.sem + 1 }
      else none
    | .rel =>
      some { s with pipes := s.pipes.set i rest, sem := s.sem - 1 }
    | .callStart =>
      some { s with pipes := s.pipes.set i rest,
                    inflight := s.inflight + 1,
                    peak := max s.peak (s.inflight + 1) }
    | .callEnd =>
      some { s with pipes := s.pipes.set i rest, inflight := s.inflight - 1 }

/-- Run a whole schedule (a list of pipeline indices). -/
def runSched (cap : Nat) (sched : List Nat) (s : SysState) : Option SysState :=
  match sched with
  | [] => some s
  | i :: rest =>
    match stepSys cap s i with
    | none => none
    | some s2 => runSched cap rest s2

/-- Initial state for a batch over the given pipelines. -/
def initSys (pipes : List (List Act)) : SysState :=
  ⟨pipes, 0, 0, 0⟩

/-- The action sequence of one `fetch_package_info` pipeline
(src/processPackagesInfo.py): `async with self.semaphore:` encloses the
metadata request and the nested `fetch_ecosystem_stats` and
`fetch_weekly_trends` requests, so all three calls run while holding a
permit. -/
def processPipeline : List Act :=
  [.acq, .callStart, .callEnd, .callStart, .callEnd, .callStart, .callEnd, .rel]

/-- The action sequence of one `update_package_info` pipeline
(src/scripts/updateExistingPackages.py): the semaphore encloses only the
metadata request; `fetch_ecosystem_stats` performs its request with no
semaphore at all; `fetch_weekly_trends` re-acquires around its request. -/
def updaterPipeline : List Act :=
  [.acq, .callStart, .callEnd, .rel,
   .callStart, .callEnd,
   .acq, .callStart, .callEnd, .rel]

/-- Whether a pipeline whose remaining actions are `l` (a suffix of
`processPipeline`) currently holds a permit: every position strictly after
the initial `acq` and up to the final `rel`. -/
def holdingB (l : List Act) : Bool :=
  match l.head? with
  | some .acq => false
  | none => false
  | some _ => true

/-- Whether such a pipeline is mid-call: its next action is the matching
`callEnd`. -/
def midCallB (l : List Act) : Bool :=
  match l.head? with
  | some .callEnd => true
  | _ => false

/-- Invariant tying the semaphore counter and the in-flight count to the
pipeline positions, for a batch of `fetch_package_info` pipelines. -/
def procInv (s : SysState) : Prop :=
  (∀ l ∈ s.pipes, l <:+ processPipeline) ∧
  s.sem = s.pipes.countP holdingB ∧
  s.inflight = s.pipes.countP midCallB ∧
  s.sem ≤ 10 ∧ s.peak ≤ 10

/-- Spec-side fixed-chunk bucketization, written from the spec's words:
"group the series into consecutive chunks of 7 days in arrival order ...
a trailing chunk of 1-6 days becomes a final partial bucket whose
week_ending is the last day present in that chunk" — each chunk becomes a
bucket carrying its last day and the sum of its counts. -/
def specFixedChunks : List DayEntry → List WeekBucket
  | [] => []
  | d :: ds =>
    ⟨(((d :: ds).take 7).getLastD d).day,
     (((d :: ds).take 7).map DayEntry.downloads).sum⟩
      :: specFixedChunks ((d :: ds).drop 7)
termination_by l => l.length
decreasing_by simp [List.length_drop]; omega

/-- A daily series of `n` consecutive days starting at serial day `base`,
with downloads given by `f`. -/
def mkSeries (base : Nat) (n : Nat) (f : Nat → Int) : List DayEntry :=
  (List.range n).map (fun i => ⟨fmtRD (base + i), f i⟩)

/-- A registry metadata body with resolvable latest version "1.0.0", the
given description value, and the given dependency and peer-dependency maps
declared on the latest version entry. -/
def mkMeta (desc : JVal) (deps peers : List (String × JVal)) : JVal :=
  .obj [("description", desc),
        ("dist-tags", .obj [("latest", .str "1.0.0")]),
        ("versions", .obj [("1.0.0",
          .obj [("dependencies", .obj deps),
                ("peerDependencies", .obj peers)])])]

/-- A registry metadata body with resolvable latest version "1.0.0" but no
description and no dependency maps. -/
def mkMetaBare : JVal :=
  .obj [("dist-tags", .obj [("latest", .str "1.0.0")]),
        ("versions", .obj [("1.0.0", .obj [])])]

/-- An upstream outcome that decodes to the empty JSON object: it passes
the usage-stats stage with both counters defaulted to 0 and passes the
trend stage with an empty daily series. -/
def okEmpty : Fetch := .resp 200 (.ok (.obj []))

/-! ## Helper lemmas -/

theorem fixedLoop_sum (days : List DayEntry) :
    ∀ (acc : List Int) (lastd : String),
      ((fixedLoop days acc lastd).map WeekBucket.downloads).sum
        = acc.sum + (days.map DayEntry.downloads).sum := by
  induction days with
  | nil =>
    intro acc lastd
    cases acc <;> simp [fixedLoop]
  | cons d ds ih =>
    intro acc lastd
    simp only [fixedLoop]
    split
    · simp [ih, List.sum_append]
      ring
    · simp [ih, List.sum_append]
      ring

theorem fixedLoop_lastd_irrel (days : List DayEntry) (l1 l2 : String) :
    fixedLoop days [] l1 = fixedLoop days [] l2 := by
  cases days <;> simp [fixedLoop]

theorem getLastD_map_day_default (l : List DayEntry) :
    ∀ (x : DayEntry),
      (l.map DayEntry.day).getLastD x.day = (l.getLastD x).day := by
  induction l with
  | nil => intro x; rfl
  | cons a t ih =>
    intro x
    simp only [List.map_cons, List.getLastD_cons]
    exact ih a

theorem getLastD_map_day (l : List DayEntry) (x : DayEntry) (s : String)
    (h : l ≠ []) :
    (l.map DayEntry.day).getLastD s = (l.getLastD x).day := by
  cases l with
  | nil => exact absurd rfl h
  | cons a t =>
    simp only [List.map_cons, List.getLastD_cons]
    exact getLastD_map_day_default t a

theorem fixedLoop_small (days : List DayEntry) :
    ∀ (acc : List Int) (lastd : String),
      acc.length + days.length < 7 →
      fixedLoop days acc lastd =
        if acc.isEmpty && days.isEmpty then []
        else [⟨(days.map DayEntry.day).getLastD lastd,
               (acc ++ days.map DayEntry.downloads).sum⟩] := by
  induction days with
  | nil =>
    intro acc lastd _
    cases acc <;> simp [fixedLoop]
  | cons d ds ih =>
    intro acc lastd h
    simp only [fixedLoop]
    have hlen : ¬ (acc ++ [d.downloads]).length = 7 := by
      simp only [List.length_append, List.length_cons, List.length_nil]
      simp only [List.length_cons] at h
      omega
    rw [if_neg hlen]
    rw [ih (acc ++ [d.downloads]) d.day
        (by simp only [List.length_append, List.length_cons, List.length_nil] at h ⊢; omega)]
    have hne : ((acc ++ [d.downloads]).isEmpty && ds.isEmpty) = false := by
      cases acc <;> simp
    rw [hne]
    have hne2 : (acc.isEmpty && (d :: ds).isEmpty) = false := by
      cases acc <;> simp
    rw [hne2]
    simp only [if_neg Bool.false_ne_true, List.map_cons, List.getLastD_cons,
      List.sum_append, List.sum_cons, List.sum_nil, List.append_assoc,
      List.cons_append, List.nil_append]

theorem fixedLoop_chunk (d1 d2 d3 d4 d5 d6 d7 : DayEntry) (rest : List DayEntry)
    (lastd : String) :
    fixedLoop (d1 :: d2 :: d3 :: d4 :: d5 :: d6 :: d7 :: rest) [] lastd =
      ⟨d7.day, List.sum [d1.downloads, d2.downloads, d3.downloads, d4.downloads,
                         d5.downloads, d6.downloads, d7.downloads]⟩
        :: fixedLoop rest [] d7.day := rfl

theorem bucketizeFixed_eq_spec (days : List DayEntry) :
    bucketizeFixed days = specFixedChunks days := by
  induction days using specFixedChunks.induct with
  | case1 => simp [bucketizeFixed, fixedLoop, specFixedChunks]
  | case2 d ds ih =>
    by_cases hlen : ds.length + 1 < 7
    · unfold bucketizeFixed
      rw [fixedLoop_small _ _ _ (by simpa using hlen)]
      simp only [specFixedChunks]
      rw [List.take_of_length_le (by simp; omega),
          List.drop_eq_nil_of_le (by simp; omega)]
      have hne : ((List.nil : List Int).isEmpty && (d :: ds).isEmpty) = false := by
        simp
      rw [hne]
      simp only [if_neg Bool.false_ne_true, List.nil_append]
      rw [getLastD_map_day (d :: ds) d "" (by simp)]
      simp [specFixedChunks]
    · rcases ds with _ | ⟨a2, ds⟩
      · simp at hlen
      rcases ds with _ | ⟨a3, ds⟩
      · simp at hlen
      rcases ds with _ | ⟨a4, ds⟩
      · simp at hlen
      rcases ds with _ | ⟨a5, ds⟩
      · simp at hlen
      rcases ds with _ | ⟨a6, ds⟩
      · simp at hlen
      rcases ds with _ | ⟨a7, ds⟩
      · simp at hlen
      unfold bucketizeFixed
      rw [fixedLoop_chunk, fixedLoop_lastd_irrel ds a7.day ""]
      simp only [specFixedChunks]
      simp only [List.take_succ_cons, List.take_zero, List.drop_succ_cons,
        List.drop_zero, List.getLastD_cons, List.getLastD, List.map_cons,
        List.map_nil, List.sum_cons, List.sum_nil]
      exact congrArg _ ih

theorem lookup_map_pair {α : Type} (l : List Nat) (g : Nat → α) (i : Nat) :
    i ∈ l → List.lookup i (l.map (fun j => (j, g j))) = some (g i) := by
  induction l with
  | nil => intro h; simp at h
  | cons j t ih =>
    intro h
    simp only [List.map_cons, List.lookup]
    by_cases hij : i = j
    · subst hij; simp
    · have hb : (i == j) = false := by simpa using hij
      rw [hb]
      exact ih ((List.mem_cons.mp h).resolve_left hij)

theorem filterMap_eq_map_of {α β : Type} (l : List α) (f : α → Option β) (g : α → β)
    (h : ∀ x ∈ l, f x = some (g x)) : l.filterMap f = l.map g := by
  induction l with
  | nil => rfl
  | cons a t ih =>
    rw [List.filterMap_cons, h a (by simp), List.map_cons]
    rw [ih (fun x hx => h x (List.mem_cons_of_mem a hx))]

theorem range_map_getD {α : Type} (names : List String) (f : String → α) :
    (List.range names.length).map (fun i => f (names.getD i "")) = names.map f := by
  induction names with
  | nil => simp
  | cons a t ih =>
    rw [List.length_cons, List.range_succ_eq_map, List.map_cons, List.map_map]
    rw [List.map_cons]
    refine congrArg₂ _ (by simp) ?_
    rw [← ih]
    rfl

theorem countP_set {α : Type} (l : List α) (p : α → Bool) :
    ∀ (i : Nat) (x y : α), l.get? i = some y →
      (l.set i x).countP p + (if p y then 1 else 0)
        = l.countP p + (if p x then 1 else 0) := by
  induction l with
  | nil => intro i x y h; simp at h
  | cons a t ih =>
    intro i x y h
    cases i with
    | zero =>
      simp only [List.get?] at h
      injection h with h
      subst h
      simp only [List.set, List.countP_cons]
      omega
    | succ n =>
      simp only [List.get?] at h
      simp only [List.set, List.countP_cons]
      have := ih n x y h
      omega

theorem countP_partition {α : Type} (l : List α) (p q : α → Bool)
    (h : ∀ a ∈ l, p a = true → q a = true) :
    l.countP p + l.countP (fun a => q a && !p a) = l.countP q := by
  induction l with
  | nil => simp
  | cons a t ih =>
    simp only [List.countP_cons]
    have ht := ih (fun x hx => h x (List.mem_cons_of_mem a hx))
    have ha := h a (List.mem_cons_self a t)
    cases hp : p a <;> cases hq : q a <;> simp_all <;> omega

theorem suffix_processPipeline (l : List Act) (h : l <:+ processPipeline) :
    l = processPipeline ∨
    l = [.callStart, .callEnd, .callStart, .callEnd, .callStart, .callEnd, .rel] ∨
    l = [.callEnd, .callStart, .callEnd, .callStart, .callEnd, .rel] ∨
    l = [.callStart, .callEnd, .callStart, .callEnd, .rel] ∨
    l = [.callEnd, .callStart, .callEnd, .rel] ∨
    l = [.callStart, .callEnd, .rel] ∨
    l = [.callEnd, .rel] ∨
    l = [.rel] ∨
    l = [] := by
  simp only [processPipeline] at h
  simp only [List.suffix_cons_iff, List.suffix_nil] at h
  simpa [processPipeline] using h

theorem mid_imp_holding (x : List Act) (hx : x <:+ processPipeline)
    (hm : midCallB x = true) : holdingB x = true := by
  rcases suffix_processPipeline x hx with h|h|h|h|h|h|h|h|h <;>
    subst h <;> simp_all [midCallB, holdingB, processPipeline]

theorem mid_le_holding (pipes : List (List Act))
    (hsuf : ∀ x ∈ pipes, x <:+ processPipeline) :
    pipes.countP midCallB ≤ pipes.countP holdingB := by
  have := countP_partition pipes midCallB holdingB
    (fun x hx hmx => mid_imp_holding x (hsuf x hx) hmx)
  omega

theorem mid_lt_holding (pipes : List (List Act)) (l : List Act)
    (hmem : l ∈ pipes) (hsuf : ∀ x ∈ pipes, x <:+ processPipeline)
    (hl : holdingB l = true) (hm : midCallB l = false) :
    pipes.countP midCallB < pipes.countP holdingB := by
  have hpart := countP_partition pipes midCallB holdingB
    (fun x hx hmx => mid_imp_holding x (hsuf x hx) hmx)
  have hpos : 0 < pipes.countP (fun x => holdingB x && !midCallB x) := by
    rw [List.countP_pos_iff]
    exact ⟨l, hmem, by simp [hl, hm]⟩
  omega

theorem rest_facts (a : Act) (rest : List Act)
    (hsuf : (a :: rest) <:+ processPipeline) :
    (a = .acq → holdingB rest = true ∧ midCallB rest = false) ∧
    (a = .rel → holdingB rest = false ∧ midCallB rest = false) ∧
    (a = .callStart → holdingB rest = true ∧ midCallB rest = true) ∧
    (a = .callEnd → holdingB rest = true ∧ midCallB rest = false) := by
  rcases suffix_processPipeline _ hsuf with h|h|h|h|h|h|h|h|h <;>
    simp_all [processPipeline, holdingB, midCallB]

theorem procInv_step (s s2 : SysState) (i : Nat)
    (hinv : procInv s) (hstep : stepSys 10 s i = some s2) : procInv s2 := by
  obtain ⟨hsuf, hsem, hinf, hcap, hpeak⟩ := hinv
  unfold stepSys at hstep
  cases hget : s.pipes.get? i with
  | none => rw [hget] at hstep; simp at hstep
  | some l =>
    rw [hget] at hstep
    cases l with
    | nil => simp at hstep
    | cons a rest =>
      have hmem : (a :: rest) ∈ s.pipes := List.get?_mem hget
      have hsufl := hsuf _ hmem
      have hsufr : rest <:+ processPipeline := (List.suffix_cons a rest).trans hsufl
      have hsuf2 : ∀ x ∈ s.pipes.set i rest, x <:+ processPipeline := by
        intro x hx
        rcases List.mem_or_eq_of_mem_set hx with h1 | h1
        · exact hsuf x h1
        · subst h1; exact hsufr
      have hH := countP_set s.pipes holdingB i rest _ hget
      have hM := countP_set s.pipes midCallB i rest _ hget
      obtain ⟨facq, frel, fcs, fce⟩ := rest_facts a rest hsufl
      cases a with
      | acq =>
        dsimp only at hstep
        split at hstep
        case isFalse => simp at hstep
        case isTrue hlt =>
          injection hstep with h2
          subst h2
          obtain ⟨hr1, hr2⟩ := facq rfl
          simp only [hr1, hr2] at hH hM
          simp [holdingB, midCallB] at hH hM
          refine ⟨hsuf2, by dsimp only; omega, by dsimp only; omega, by dsimp only; omega, hpeak⟩
      | rel =>
        injection hstep with h2
        subst h2
        obtain ⟨hr1, hr2⟩ := frel rfl
        simp only [hr1, hr2] at hH hM
        simp [holdingB, midCallB] at hH hM
        refine ⟨hsuf2, by dsimp only; omega, by dsimp only; omega, by dsimp only; omega, hpeak⟩
      | callStart =>
        injection hstep with h2
        subst h2
        obtain ⟨hr1, hr2⟩ := fcs rfl
        have hlt : s.pipes.countP midCallB < s.pipes.countP holdingB :=
          mid_lt_holding s.pipes (.callStart :: rest) hmem hsuf
            (by simp [holdingB]) (by simp [midCallB])
        simp only [hr1, hr2] at hH hM
        simp [holdingB, midCallB] at hH hM
        refine ⟨hsuf2, by dsimp only; omega, by dsimp only; omega, by dsimp only; omega, ?_⟩
        show max s.peak (s.inflight + 1) ≤ 10
        rw [Nat.max_le]
        omega
      | callEnd =>
        injection hstep with h2
        subst h2
        obtain ⟨hr1, hr2⟩ := fce rfl
        have hpos : 0 < s.pipes.countP midCallB := by
          rw [List.countP_pos_iff]
          exact ⟨_, hmem, by simp [midCallB]⟩
        simp only [hr1, hr2] at hH hM
        simp [holdingB, midCallB] at hH hM
        refine ⟨hsuf2, by dsimp only; omega, by dsimp only; omega, by dsimp only; omega, hpeak⟩

theorem procInv_init (n : Nat) :
    procInv (initSys (List.replicate n processPipeline)) := by
  refine ⟨?_, ?_, ?_, by simp [initSys], by simp [initSys]⟩
  · intro l hl
    rw [List.eq_of_mem_replicate hl]
  · simp only [initSys]
    symm
    rw [List.countP_eq_zero]
    intro l hl
    rw [List.eq_of_mem_replicate hl]
    simp [holdingB, processPipeline]
  · simp only [initSys]
    symm
    rw [List.countP_eq_zero]
    intro l hl
    rw [List.eq_of_mem_replicate hl]
    simp [midCallB, processPipeline]

theorem procInv_run (sched : List Nat) :
    ∀ (s s2 : SysState), procInv s → runSched 10 sched s = some s2 →
      procInv s2 := by
  induction sched with
  | nil =>
    intro s s2 h hr
    simp only [runSched] at hr
    injection hr with hr
    subst hr
    exact h
  | cons i rest ih =>
    intro s s2 h hr
    unfold runSched at hr
    cases hstep : stepSys 10 s i with
    | none => rw [hstep] at hr; simp at hr
    | some s1 =>
      rw [hstep] at hr
      exact ih s1 s2 (procInv_step s s1 i h hstep) hr

/-! ## Claim theorems -/

/-- C1 counterexample: under calendar-week alignment the bucketizer does
NOT drop the incomplete leading week.  For the daily series 2025-01-01
(a Wednesday) through 2025-03-02 — a 5-day partial leading week followed by
8 full Monday-aligned weeks — with every count 1, the output has 9 buckets,
not 8: the first bucket is the partial leading week (5 days, week_ending
2025-01-05, the Sunday before the first Monday). -/
theorem c1_counterexample :
    bucketizeCal (mkSeries (toRD 2025 1 1) 61 (fun _ => 1)) = .ok
      [⟨"2025-01-05", 5⟩,
       ⟨"2025-01-12", 7⟩,
       ⟨"2025-01-19", 7⟩,
       ⟨"2025-01-26", 7⟩,
       ⟨"2025-02-02", 7⟩,
       ⟨"2025-02-09", 7⟩,
       ⟨"2025-02-16", 7⟩,
       ⟨"2025-02-23", 7⟩,
       ⟨"2025-03-02", 7⟩] ∧
    (bucketizeCal (mkSeries (toRD 2025 1 1) 61 (fun _ => 1))).map List.length
      = .ok 9 :=
  ⟨rfl, rfl⟩

/-- C1 (amended): under calendar-week alignment, at each Monday the days
accumulated so far are emitted as a bucket, so an incomplete LEADING week is
emitted as a partial bucket (week_ending the Sunday before the first
Monday); only an incomplete TRAILING week is dropped.  For any daily series
with dates 2025-01-01 (Wednesday) through 2025-03-02 — a 5-day partial
leading week followed by 8 full Monday-aligned weeks — and arbitrary daily
counts f, the output is exactly 9 buckets: the partial leading week followed
by the 8 full calendar weeks. -/
theorem c1_amended (f : Nat → Int) :
    bucketizeCal (mkSeries (toRD 2025 1 1) 61 f) = .ok
      [⟨"2025-01-05", List.sum [f 0, f 1, f 2, f 3, f 4]⟩,
       ⟨"2025-01-12", List.sum [f 5, f 6, f 7, f 8, f 9, f 10, f 11]⟩,
       ⟨"2025-01-19", List.sum [f 12, f 13, f 14, f 15, f 16, f 17, f 18]⟩,
       ⟨"2025-01-26", List.sum [f 19, f 20, f 21, f 22, f 23, f 24, f 25]⟩,
       ⟨"2025-02-02", List.sum [f 26, f 27, f 28, f 29, f 30, f 31, f 32]⟩,
       ⟨"2025-02-09", List.sum [f 33, f 34, f 35, f 36, f 37, f 38, f 39]⟩,
       ⟨"2025-02-16", List.sum [f 40, f 41, f 42, f 43, f 44, f 45, f 46]⟩,
       ⟨"2025-02-23", List.sum [f 47, f 48, f 49, f 50, f 51, f 52, f 53]⟩,
       ⟨"2025-03-02", List.sum [f 54, f 55, f 56, f 57, f 58, f 59, f 60]⟩] := rfl


/-- C2: under fixed-chunk alignment, `bucketize` groups the daily series
into consecutive 7-day chunks in arrival order (proved as an equivalence
with `specFixedChunks`, the direct transcription of the spec's chunking
description, whose trailing 1-6 day chunk becomes a final partial bucket
carrying the last day present in that chunk); and on 17 consecutive daily
entries of value 1 it produces exactly 3 buckets with downloads [7, 7, 3],
the last bucket's week_ending equal to the last input day. -/
theorem c2_fixed_chunk_bucketize :
    (∀ days : List DayEntry, bucketizeFixed days = specFixedChunks days) ∧
    bucketizeFixed (mkSeries (toRD 2025 1 1) 17 (fun _ => 1))
      = [⟨"2025-01-07", 7⟩, ⟨"2025-01-14", 7⟩, ⟨"2025-01-17", 3⟩] ∧
    (mkSeries (toRD 2025 1 1) 17 (fun _ => 1)).getLastD ⟨"", 0⟩
      = ⟨"2025-01-17", 1⟩ :=
  ⟨bucketizeFixed_eq_spec, rfl, rfl⟩

/-- C3 counterexample: the concurrency bound is NOT enforced for every
outbound call.  In `update_package_info` the usage-stats request of
`fetch_ecosystem_stats` runs outside the semaphore, so with 11 concurrent
updater pipelines there is a valid schedule (each pipeline acquires,
performs its metadata call, releases, then starts its usage-stats call)
after which 11 outbound calls are in flight simultaneously: the peak
in-flight count reaches 11 > 10. -/
theorem c3_counterexample :
    (runSched 10 ((List.range 11).flatMap (fun i => [i, i, i, i, i]))
        (initSys (List.replicate 11 updaterPipeline))).map SysState.peak
      = some 11 := rfl

/-- C3 (amended): in `processPackagesInfo.py` every outbound call of every
pipeline executes while holding the shared `Semaphore(10)` permit, so for
any number of concurrent `fetch_package_info` pipelines and any valid
schedule, at no point do more than 10 outbound calls execute simultaneously;
in `updateExistingPackages.py` the metadata and trend calls are gated but
the usage-stats call is not, so its batches can exceed the bound (see the
counterexample). -/
theorem c3_amended (n : Nat) (sched : List Nat) (s : SysState)
    (h : runSched 10 sched (initSys (List.replicate n processPipeline)) = some s) :
    s.inflight ≤ 10 ∧ s.peak ≤ 10 := by
  have hinv := procInv_run sched _ s (procInv_init n) h
  obtain ⟨hsuf, hsem, hinf, hcap, hpeak⟩ := hinv
  have := mid_le_holding s.pipes hsuf
  exact ⟨by omega, hpeak⟩

/-- C3 witness: one `fetch_package_info` pipeline run to completion; the
bound holds. -/
theorem c3_amended_witness :
    SysState.inflight ⟨[[]], 0, 0, 1⟩ ≤ 10 ∧ SysState.peak ⟨[[]], 0, 0, 1⟩ ≤ 10 :=
  c3_amended 1 [0, 0, 0, 0, 0, 0, 0, 0] ⟨[[]], 0, 0, 1⟩ rfl

/-- C4: the per-item aggregation is total — for every combination of
upstream outcomes (non-success status, missing fields, transport exception,
decoding fault are all values of `Fetch` / of the body), `fetch_package_info`
returns a dict with exactly the record keys and the input identifier in its
name field, and the batch returns exactly one record per input identifier,
in position. -/
theorem c4_one_record_per_identifier (env : FetchEnv) (names : List String) :
    (fetchAll env names).length = names.length ∧
    (∀ i, (fetchAll env names).get? i = (names.get? i).map (pipelineOf env)) ∧
    ∀ package_name meta ecoR trendR,
      (NPMPackageProcessor.fetch_package_info package_name meta ecoR trendR).map Prod.fst
        = NPMPackageProcessor.recordKeys ∧
      List.lookup "name"
          (NPMPackageProcessor.fetch_package_info package_name meta ecoR trendR)
        = some (.str package_name) := by
  refine ⟨by simp [fetchAll], fun i => by simp [fetchAll, List.getElem?_map], ?_⟩
  intro package_name meta ecoR trendR
  unfold NPMPackageProcessor.fetch_package_info
  cases NPMPackageProcessor.fetchPackageInfoRun meta ecoR trendR <;>
    simp [NPMPackageProcessor.mkSuccessDict, NPMPackageProcessor.createErrorEntry,
      NPMPackageProcessor.recordKeys, List.lookup]

/-- C5: the gathered batch result equals the in-order per-identifier map,
for every completion order (any permutation of the task indices): the record
at position i is the record computed for the identifier at position i. -/
theorem c5_order_preserved (env : FetchEnv) (names : List String)
    (order : List Nat) (h : order.Perm (List.range names.length)) :
    gatherResults env names order = fetchAll env names ∧
    (fetchAll env names).length = names.length := by
  constructor
  · unfold gatherResults
    rw [filterMap_eq_map_of (List.range names.length)
      (fun i => List.lookup i (runOrder env names order))
      (fun i => pipelineOf env (names.getD i ""))
      (fun i hi => lookup_map_pair order _ i (h.mem_iff.mpr hi))]
    exact range_map_getD names (pipelineOf env)
  · simp [fetchAll]

/-- C5 witness: a two-element batch completing in reversed order. -/
theorem c5_order_preserved_witness :
    gatherResults (fun _ => (.exc "down", .exc "down", .exc "down"))
        ["left-pad", "react"] [1, 0]
      = fetchAll (fun _ => (.exc "down", .exc "down", .exc "down"))
          ["left-pad", "react"] ∧
    (fetchAll (fun _ => (.exc "down", .exc "down", .exc "down"))
        ["left-pad", "react"]).length = 2 :=
  c5_order_preserved (fun _ => (.exc "down", .exc "down", .exc "down"))
    ["left-pad", "react"] [1, 0] (by decide)

/-- C10: fixed-chunk bucketization conserves the total download count: the
sum of the emitted buckets' downloads equals the sum of the daily counts,
and the empty series yields the empty bucket sequence. -/
theorem c10_conservation :
    (∀ days : List DayEntry,
      ((bucketizeFixed days).map WeekBucket.downloads).sum
        = (days.map DayEntry.downloads).sum) ∧
    bucketizeFixed [] = [] := by
  constructor
  · intro days
    have := fixedLoop_sum days [] ""
    simpa [bucketizeFixed] using this
  · rfl

/-- C6 counterexample: an error-path record can carry an EMPTY error
message.  A transport exception whose text is empty (Python `str(e) = ""`,
e.g. `raise Exception()`) at the metadata stage is caught by the aggregator
boundary and converted with `_create_error_entry(package_name, str(e))`,
producing an error record whose error field is the empty string — not a
non-empty message as claimed (and `process_packages` then even counts this
record as successful, since `""` is falsy). -/
theorem c6_counterexample :
    NPMPackageProcessor.fetch_package_info "left-pad" (.exc "")
        (.resp 200 (.ok (.obj []))) (.resp 200 (.ok (.obj [])))
      = NPMPackageProcessor.createErrorEntry "left-pad" "" ∧
    List.lookup "error" (NPMPackageProcessor.createErrorEntry "left-pad" "")
      = some (.str "") ∧
    truthy (.str "") = false :=
  ⟨rfl, rfl, rfl⟩

/-- C6 (amended): every record produced by the aggregator whose error field
is set equals `_create_error_entry` of some message, with all numeric
fields zero and all collection/string data fields empty; the error message
is non-empty for every failure message the scripts construct themselves —
the metadata-status, usage-stats-status and download-stats-status failures
and the missing-version failure — but a transport exception with empty text
yields an empty error message. -/
theorem c6_amended (package_name : String) :
    (∀ meta ecoR trendR,
      List.lookup "error"
          (NPMPackageProcessor.fetch_package_info package_name meta ecoR trendR)
        ≠ some .null →
      (∃ msg, NPMPackageProcessor.fetch_package_info package_name meta ecoR trendR
          = NPMPackageProcessor.createErrorEntry package_name msg) ∧
      List.lookup "description"
          (NPMPackageProcessor.fetch_package_info package_name meta ecoR trendR)
        = some (.str "") ∧
      List.lookup "link"
          (NPMPackageProcessor.fetch_package_info package_name meta ecoR trendR)
        = some (.str "") ∧
      List.lookup "dependencies"
          (NPMPackageProcessor.fetch_package_info package_name meta ecoR trendR)
        = some (.arr []) ∧
      List.lookup "downloads"
          (NPMPackageProcessor.fetch_package_info package_name meta ecoR trendR)
        = some (.obj [("total", .num 0), ("weekly_trends", .arr [])]) ∧
      List.lookup "dependent_packages_count"
          (NPMPackageProcessor.fetch_package_info package_name meta ecoR trendR)
        = some (.num 0) ∧
      List.lookup "latest_version"
          (NPMPackageProcessor.fetch_package_info package_name meta ecoR trendR)
        = some (.str "")) ∧
    (∀ st body ecoR trendR, st ≠ 200 →
      NPMPackageProcessor.fetch_package_info package_name (.resp st body) ecoR trendR
        = NPMPackageProcessor.createErrorEntry package_name
            ("Failed to fetch package info: " ++ toString st) ∧
      ("Failed to fetch package info: " ++ toString st) ≠ "") ∧
    (∀ data st body trendR, st ≠ 200 →
      NPMPackageProcessor.fetch_package_info package_name (.resp 200 (.ok data))
          (.resp st body) trendR
        = NPMPackageProcessor.createErrorEntry package_name
            ("Failed to fetch ecosystem stats: " ++ toString st) ∧
      ("Failed to fetch ecosystem stats: " ++ toString st) ≠ "") ∧
    (∀ data st body, st ≠ 200 →
      NPMPackageProcessor.fetch_package_info package_name (.resp 200 (.ok data))
          okEmpty (.resp st body)
        = NPMPackageProcessor.createErrorEntry package_name
            ("Failed to fetch download stats: " ++ toString st) ∧
      ("Failed to fetch download stats: " ++ toString st) ≠ "") ∧
    (NPMPackageProcessor.fetch_package_info package_name
        (.resp 200 (.ok (.obj []))) okEmpty okEmpty
      = NPMPackageProcessor.createErrorEntry package_name
          "No version information found" ∧
     ("No version information found" : String) ≠ "") := by
  refine ⟨?_, ?_, ?_, ?_, rfl, by decide⟩
  · intro meta ecoR trendR herr
    unfold NPMPackageProcessor.fetch_package_info at herr ⊢
    cases hrun : NPMPackageProcessor.fetchPackageInfoRun meta ecoR trendR with
    | ok p =>
      rw [hrun] at herr
      simp [NPMPackageProcessor.mkSuccessDict, List.lookup] at herr
    | error e =>
      exact ⟨⟨e, rfl⟩, rfl, rfl, rfl, rfl, rfl, rfl⟩
  · intro st body ecoR trendR hst
    constructor
    · unfold NPMPackageProcessor.fetch_package_info
      have hrun : NPMPackageProcessor.fetchPackageInfoRun (.resp st body) ecoR trendR
          = .error ("Failed to fetch package info: " ++ toString st) := by
        unfold NPMPackageProcessor.fetchPackageInfoRun getJson
        dsimp only
        rw [if_pos hst]
        rfl
      rw [hrun]
    · intro hcontra
      have hlen := congrArg String.length hcontra
      rw [String.length_append] at hlen
      have h1 : ("Failed to fetch package info: ").length = 30 := rfl
      have h2 : ("" : String).length = 0 := rfl
      omega
  · intro data st body trendR hst
    have hmsg : ("Failed to fetch ecosystem stats: " ++ toString st) ≠ "" := by
      intro hcontra
      have hlen := congrArg String.length hcontra
      rw [String.length_append] at hlen
      have h1 : ("Failed to fetch ecosystem stats: ").length = 33 := rfl
      have h2 : ("" : String).length = 0 := rfl
      omega
    refine ⟨?_, hmsg⟩
    have hecoD : fetch_ecosystem_stats (.resp st body)
        = [("error", .str ("Failed to fetch ecosystem stats: " ++ toString st))] := by
      unfold fetch_ecosystem_stats
      dsimp only
      rw [if_pos hst]
    unfold NPMPackageProcessor.fetch_package_info
    have hrun : NPMPackageProcessor.fetchPackageInfoRun (.resp 200 (.ok data))
        (.resp st body) trendR
        = .error ("Failed to fetch ecosystem stats: " ++ toString st) := by
      unfold NPMPackageProcessor.fetchPackageInfoRun getJson
      dsimp only
      rw [hecoD]
      simp [dget, List.lookup, truthy, hmsg, errText]
      rfl
    rw [hrun]
  · intro data st body hst
    have hmsg : ("Failed to fetch download stats: " ++ toString st) ≠ "" := by
      intro hcontra
      have hlen := congrArg String.length hcontra
      rw [String.length_append] at hlen
      have h1 : ("Failed to fetch download stats: ").length = 32 := rfl
      have h2 : ("" : String).length = 0 := rfl
      omega
    refine ⟨?_, hmsg⟩
    have htrD : NPMPackageProcessor.fetch_weekly_trends (.resp st body)
        = [("error", .str ("Failed to fetch download stats: " ++ toString st))] := by
      unfold NPMPackageProcessor.fetch_weekly_trends NPMPackageProcessor.weeklyRun getJson
      dsimp only
      rw [if_pos hst]
      rfl
    unfold NPMPackageProcessor.fetch_package_info
    have hrun : NPMPackageProcessor.fetchPackageInfoRun (.resp 200 (.ok data))
        okEmpty (.resp st body)
        = .error ("Failed to fetch download stats: " ++ toString st) := by
      unfold NPMPackageProcessor.fetchPackageInfoRun getJson
      dsimp only
      rw [htrD]
      simp [dget, List.lookup, truthy, hmsg, errText, okEmpty, fetch_ecosystem_stats]
      rfl
    rw [hrun]

/-- C6 witness: a 404 at the metadata stage, a 500 at the usage-stats
stage, and a 503 at the download-trend stage each yield the corresponding
status error record, and an exception with (non-empty) text at the metadata
stage yields a zeroed record. -/
theorem c6_amended_witness :
    NPMPackageProcessor.fetch_package_info "left-pad" (.resp 404 (.ok .null))
        (.exc "x") (.exc "x")
      = NPMPackageProcessor.createErrorEntry "left-pad"
          "Failed to fetch package info: 404" ∧
    NPMPackageProcessor.fetch_package_info "left-pad" (.resp 200 (.ok (.obj [])))
        (.resp 500 (.ok .null)) (.exc "x")
      = NPMPackageProcessor.createErrorEntry "left-pad"
          "Failed to fetch ecosystem stats: 500" ∧
    NPMPackageProcessor.fetch_package_info "left-pad" (.resp 200 (.ok (.obj [])))
        okEmpty (.resp 503 (.ok .null))
      = NPMPackageProcessor.createErrorEntry "left-pad"
          "Failed to fetch download stats: 503" ∧
    List.lookup "description"
        (NPMPackageProcessor.fetch_package_info "left-pad" (.exc "boom")
          (.exc "x") (.exc "x"))
      = some (.str "") :=
  ⟨((c6_amended "left-pad").2.1 404 (.ok .null) (.exc "x") (.exc "x")
      (by decide)).1,
   ((c6_amended "left-pad").2.2.1 (.obj []) 500 (.ok .null) (.exc "x")
      (by decide)).1,
   ((c6_amended "left-pad").2.2.2.1 (.obj []) 503 (.ok .null)
      (by decide)).1,
   ((c6_amended "left-pad").1 (.exc "boom") (.exc "x") (.exc "x")
      (fun h => nomatch h)).2.1⟩

/-- C7 counterexample: the "no version information found" check does NOT
short-circuit ahead of the other fetches.  For a registry response that
succeeds (status 200) but has no dist-tags at all, if the usage-stats fetch
returns status 500 the aggregator returns the usage-stats error record, not
the no-version-information record: the outcome depends on the usage-stats
fetch, contradicting the claimed ordering. -/
theorem c7_counterexample :
    NPMPackageProcessor.fetch_package_info "left-pad" (.resp 200 (.ok (.obj [])))
        (.resp 500 (.ok .null)) (.resp 200 (.ok (.obj [])))
      = NPMPackageProcessor.createErrorEntry "left-pad"
          "Failed to fetch ecosystem stats: 500" ∧
    "Failed to fetch ecosystem stats: 500" ≠ "No version information found" :=
  ⟨rfl, by decide⟩

/-- C7 (amended): metadata transport exceptions and non-success statuses do
short-circuit (the error record is independent of the usage-stats and trend
outcomes), but the missing-version check runs only AFTER the usage-stats
and download-trend stages: the "No version information found" record is
produced only when both of those stages pass, whether the latest dist-tag
is missing/falsy or the versions table is absent. -/
theorem c7_amended (package_name : String) :
    (∀ m ecoR trendR,
      NPMPackageProcessor.fetch_package_info package_name (.exc m) ecoR trendR
        = NPMPackageProcessor.createErrorEntry package_name m) ∧
    (∀ st body ecoR trendR, st ≠ 200 →
      NPMPackageProcessor.fetch_package_info package_name (.resp st body) ecoR trendR
        = NPMPackageProcessor.createErrorEntry package_name
            ("Failed to fetch package info: " ++ toString st)) ∧
    (∀ data ecoR trendR dtv lv,
      truthy (dget (fetch_ecosystem_stats ecoR) "error") = false →
      truthy (dget (NPMPackageProcessor.fetch_weekly_trends trendR) "error") = false →
      jgetE data "dist-tags" (.obj []) = .ok dtv →
      jgetE dtv "latest" .null = .ok lv →
      truthy lv = false →
      NPMPackageProcessor.fetch_package_info package_name (.resp 200 (.ok data)) ecoR trendR
        = NPMPackageProcessor.createErrorEntry package_name
            "No version information found") ∧
    (∀ data ecoR trendR dtv lv,
      truthy (dget (fetch_ecosystem_stats ecoR) "error") = false →
      truthy (dget (NPMPackageProcessor.fetch_weekly_trends trendR) "error") = false →
      jgetE data "dist-tags" (.obj []) = .ok dtv →
      jgetE dtv "latest" .null = .ok lv →
      truthy lv = true →
      pyIn "versions" data = .ok false →
      NPMPackageProcessor.fetch_package_info package_name (.resp 200 (.ok data)) ecoR trendR
        = NPMPackageProcessor.createErrorEntry package_name
            "No version information found") := by
  refine ⟨fun m ecoR trendR => rfl, ?_, ?_, ?_⟩
  · intro st body ecoR trendR hst
    unfold NPMPackageProcessor.fetch_package_info
    have hrun : NPMPackageProcessor.fetchPackageInfoRun (.resp st body) ecoR trendR
        = .error ("Failed to fetch package info: " ++ toString st) := by
      unfold NPMPackageProcessor.fetchPackageInfoRun getJson
      dsimp only
      rw [if_pos hst]
      rfl
    rw [hrun]
  · intro data ecoR trendR dtv lv hEco hTrend hdt hlv hlvF
    unfold NPMPackageProcessor.fetch_package_info
    have hrun : NPMPackageProcessor.fetchPackageInfoRun (.resp 200 (.ok data)) ecoR trendR
        = .error "No version information found" := by
      unfold NPMPackageProcessor.fetchPackageInfoRun getJson
      simp only [hEco, hTrend, Bind.bind, Except.bind, hdt, hlv, hlvF]
      simp
      simp [hdt, hlv, hlvF]
      rfl
    rw [hrun]
  · intro data ecoR trendR dtv lv hEco hTrend hdt hlv hlvT hin
    unfold NPMPackageProcessor.fetch_package_info
    have hrun : NPMPackageProcessor.fetchPackageInfoRun (.resp 200 (.ok data)) ecoR trendR
        = .error "No version information found" := by
      unfold NPMPackageProcessor.fetchPackageInfoRun getJson
      simp only [hEco, hTrend, Bind.bind, Except.bind, hdt, hlv, hlvT, hin]
      simp
      simp [hdt, hlv, hlvT, hin]
      rfl
    rw [hrun]

/-- C7 witness: a registry body with no dist-tags and one with dist-tags
but no versions table, each paired with passing usage-stats and trend
stages, yield the no-version error record; a 404 short-circuits. -/
theorem c7_amended_witness :
    NPMPackageProcessor.fetch_package_info "left-pad" (.resp 404 (.ok .null))
        (.exc "eco down") (.exc "trend down")
      = NPMPackageProcessor.createErrorEntry "left-pad"
          "Failed to fetch package info: 404" ∧
    NPMPackageProcessor.fetch_package_info "left-pad" (.resp 200 (.ok (.obj [])))
        (.resp 200 (.ok (.obj []))) (.resp 200 (.ok (.obj [])))
      = NPMPackageProcessor.createErrorEntry "left-pad"
          "No version information found" ∧
    NPMPackageProcessor.fetch_package_info "left-pad"
        (.resp 200 (.ok (.obj [("dist-tags", .obj [("latest", .str "1.0.0")])])))
        (.resp 200 (.ok (.obj []))) (.resp 200 (.ok (.obj [])))
      = NPMPackageProcessor.createErrorEntry "left-pad"
          "No version information found" :=
  ⟨(c7_amended "left-pad").2.1 404 (.ok .null) (.exc "eco down") (.exc "trend down")
      (by decide),
   (c7_amended "left-pad").2.2.1 (.obj []) (.resp 200 (.ok (.obj [])))
      (.resp 200 (.ok (.obj []))) (.obj []) .null rfl rfl rfl rfl rfl,
   (c7_amended "left-pad").2.2.2 (.obj [("dist-tags", .obj [("latest", .str "1.0.0")])])
      (.resp 200 (.ok (.obj []))) (.resp 200 (.ok (.obj [])))
      (.obj [("latest", .str "1.0.0")]) (.str "1.0.0") rfl rfl rfl rfl rfl rfl⟩

/-- C8 counterexample: the composed success record of
`processPackagesInfo.py` contains NO peer-dependency field at all, even
when the latest version's metadata declares peer dependencies: the record
is a success (error is None) yet looking up "peerDependencies" finds
nothing. -/
theorem c8_counterexample :
    List.lookup "error"
        (NPMPackageProcessor.fetch_package_info "left-pad"
          (.resp 200 (.ok (mkMeta (.str "demo") [("lodash", .str "^4")]
            [("react", .str "*")]))) okEmpty okEmpty)
      = some .null ∧
    List.lookup "peerDependencies"
        (NPMPackageProcessor.fetch_package_info "left-pad"
          (.resp 200 (.ok (mkMeta (.str "demo") [("lodash", .str "^4")]
            [("react", .str "*")]))) okEmpty okEmpty)
      = none :=
  ⟨rfl, rfl⟩

/-- C8 (amended): for every metadata success response with a resolvable
latest version, the updater script's composed update contains the
description, the dependency name list, and the peer-dependency name list
(each defaulting to empty when absent), while the initial-population
script's composed record contains the description and the dependency name
list but no peer-dependency field at all. -/
theorem c8_amended (package_name : String) (desc : JVal)
    (deps peers : List (String × JVal)) :
    List.lookup "description"
        (NPMPackageProcessor.fetch_package_info package_name
          (.resp 200 (.ok (mkMeta desc deps peers))) okEmpty okEmpty)
      = some desc ∧
    List.lookup "dependencies"
        (NPMPackageProcessor.fetch_package_info package_name
          (.resp 200 (.ok (mkMeta desc deps peers))) okEmpty okEmpty)
      = some (.arr ((deps.map Prod.fst).map JVal.str)) ∧
    List.lookup "peerDependencies"
        (NPMPackageProcessor.fetch_package_info package_name
          (.resp 200 (.ok (mkMeta desc deps peers))) okEmpty okEmpty)
      = none ∧
    NPMPackageUpdater.update_package_info package_name
        (.resp 200 (.ok (mkMeta desc deps peers))) okEmpty okEmpty (.str "T")
      = .updated
          [("description", desc),
           ("link", .str ("https://www.npmjs.com/package/" ++ package_name)),
           ("dependencies", .arr ((deps.map Prod.fst).map JVal.str)),
           ("peerDependencies", .arr ((peers.map Prod.fst).map JVal.str)),
           ("downloads", .obj [("total", .num 0), ("weekly_trends", .arr [])]),
           ("dependent_packages_count", .num 0),
           ("latest_version", .str "1.0.0"),
           ("last_updated", .str "T")] ∧
    List.lookup "description"
        (NPMPackageProcessor.fetch_package_info package_name
          (.resp 200 (.ok mkMetaBare)) okEmpty okEmpty)
      = some (.str "") ∧
    List.lookup "dependencies"
        (NPMPackageProcessor.fetch_package_info package_name
          (.resp 200 (.ok mkMetaBare)) okEmpty okEmpty)
      = some (.arr []) ∧
    NPMPackageUpdater.update_package_info package_name
        (.resp 200 (.ok mkMetaBare)) okEmpty okEmpty (.str "T")
      = .updated
          [("description", .str ""),
           ("link", .str ("https://www.npmjs.com/package/" ++ package_name)),
           ("dependencies", .arr []),
           ("peerDependencies", .arr []),
           ("downloads", .obj [("total", .num 0), ("weekly_trends", .arr [])]),
           ("dependent_packages_count", .num 0),
           ("latest_version", .str "1.0.0"),
           ("last_updated", .str "T")] :=
  ⟨rfl, rfl, rfl, rfl, rfl, rfl, rfl⟩

/-- C9: for every usage-statistics response with success status (and a
decodable JSON-object body), `fetch_ecosystem_stats` returns a success dict
(error is None); a missing downloads field yields total_downloads = 0 and a
missing dependent_packages_count field yields dependent_count = 0. -/
theorem c9_usage_defaults (fs : List (String × JVal)) :
    List.lookup "error" (fetch_ecosystem_stats (.resp 200 (.ok (.obj fs))))
      = some .null ∧
    (List.lookup "downloads" fs = none →
      List.lookup "total_downloads" (fetch_ecosystem_stats (.resp 200 (.ok (.obj fs))))
        = some (.num 0)) ∧
    (List.lookup "dependent_packages_count" fs = none →
      List.lookup "dependent_count" (fetch_ecosystem_stats (.resp 200 (.ok (.obj fs))))
        = some (.num 0)) := by
  refine ⟨rfl, ?_, ?_⟩
  · intro h
    simp [fetch_ecosystem_stats, dictGetD, h, List.lookup]
  · intro h
    simp [fetch_ecosystem_stats, dictGetD, h, List.lookup]

/-- C9 witness: the empty success body defaults both counters to 0. -/
theorem c9_usage_defaults_witness :
    List.lookup "total_downloads" (fetch_ecosystem_stats (.resp 200 (.ok (.obj []))))
      = some (.num 0) ∧
    List.lookup "dependent_count" (fetch_ecosystem_stats (.resp 200 (.ok (.obj []))))
      = some (.num 0) :=
  ⟨(c9_usage_defaults []).2.1 rfl, (c9_usage_defaults []).2.2 rfl⟩
